import Mathlib

/-!
Shallow embedding of the resilient multi-model inference invocation layer
of ImageSuperMagic (the AI service in `src/shared/types/index.ts`, the
functions `calculateBackoffDelay`, `enforceRateLimit`, `isRetryableError`,
`getNextModel`, `resetToMainModel`, `getCurrentModel`, `executeWithRetry`
and `extractJson`), together with theorems checking the natural-language
specification of that layer.

Modelling conventions:
* module-level mutable globals (`currentModelIndex`, `fallbackModels`,
  `RATE_LIMIT.lastCallTime`) become an explicit state record threaded
  through the functions;
* the asynchronous operation passed to `executeWithRetry` becomes a pure
  function from (global attempt ordinal, chain index of the model handle)
  to `Except Thrown T`, which captures an arbitrary effectful closure whose
  outcome may differ on every call;
* thrown JavaScript values are modelled by `Thrown`: either an `Error`
  carrying a message, or a non-`Error` value carrying its `String(...)`
  form;
* real time is modelled by an ideal logical clock: `Date.now()` readings are
  explicit arguments, and `sleep(d)` advances the clock by exactly `d`;
* `Math.random()` draws are explicit parameters in `[0,1)`;
* JavaScript numbers are modelled by `ℚ` where real arithmetic matters
  (backoff delays) and by `Nat` for counters and timestamps.
-/

namespace ImageSuperMagic

/-! ### Configuration constants (`RETRY_CONFIG`, `RATE_LIMIT`, `MODEL_CHAIN`) -/

/-- Constant `RETRY_CONFIG.maxRetries = 3`. -/
def maxRetries : Nat := 3

/-- Constant `RETRY_CONFIG.baseDelayMs = 1000`. -/
def baseDelayMs : ℚ := 1000

/-- Constant `RETRY_CONFIG.maxDelayMs = 30000`. -/
def maxDelayMs : ℚ := 30000

/-- Constant `RETRY_CONFIG.backoffMultiplier = 2`. -/
def backoffMultiplier : ℚ := 2

/-- Constant `RATE_LIMIT.minDelayBetweenCallsMs = 500`. -/
def minDelayBetweenCallsMs : Nat := 500

/-- Source list `MODEL_CHAIN`: the static ordered list of backend identifiers.
The head is the primary model; the tail corresponds to `fallbackModels`. -/
def MODEL_CHAIN : List String :=
  ["gemini-2.5-pro", "gemini-2.5-flash", "gemini-2.0-flash-exp", "gemini-1.5-pro"]

/-! ### Thrown values and the error classifier (`isRetryableError`) -/

/-- A JavaScript thrown value: either an `Error` instance with a message, or
any other value, of which we keep only its `String(...)` coercion (that is
all `executeWithRetry` ever uses of it). -/
inductive Thrown where
  | err (msg : String)
  | nonErr (strForm : String)
  deriving Repr, DecidableEq

/-- Wrapping `new Error(String(error))` or pass-through: the message of the `lastError`
that `executeWithRetry` stores for a thrown value
(`error instanceof Error ? error : new Error(String(error))`). -/
def wrapMsg : Thrown → String
  | .err m => m
  | .nonErr s => s

/-- Lower-case a string character-wise (`String.prototype.toLowerCase` on
the ASCII messages this layer deals with). -/
def lowerChars (s : String) : List Char := s.data.map Char.toLower

/-- Model of `String.prototype.includes` on character lists: `containsSub pat s` is
true when `pat` occurs as a contiguous substring of `s`. -/
def containsSub (pat : List Char) : List Char → Bool
  | [] => pat.isEmpty
  | c :: cs => pat.isPrefixOf (c :: cs) || containsSub pat cs

/-- The keyword table of the error classifier, in source order. -/
def retryableKeywords : List String :=
  ["503", "overloaded", "429", "rate limit", "quota",
   "resource exhausted", "temporarily unavailable", "network", "timeout"]

/-- Source function `isRetryableError`: true only for `Error` instances whose lower-cased
message contains one of the retryable keywords as a substring. -/
def isRetryableError : Thrown → Bool
  | .err msg =>
    let m := lowerChars msg
    (containsSub "503".data m) ||
    (containsSub "overloaded".data m) ||
    (containsSub "429".data m) ||
    (containsSub "rate limit".data m) ||
    (containsSub "quota".data m) ||
    (containsSub "resource exhausted".data m) ||
    (containsSub "temporarily unavailable".data m) ||
    (containsSub "network".data m) ||
    (containsSub "timeout".data m)
  | .nonErr _ => false

/-! ### Backoff calculator (`calculateBackoffDelay`) -/

/-- Source function `calculateBackoffDelay(attempt)` with the `Math.random()` draw made
explicit as `rand ∈ [0,1)`:
`baseDelay = baseDelayMs * backoffMultiplier ^ attempt`,
`jitter = rand * 0.3 * baseDelay`, result `min (baseDelay + jitter) maxDelayMs`. -/
def calculateBackoffDelay (rand : ℚ) (attempt : Nat) : ℚ :=
  let baseDelay := baseDelayMs * backoffMultiplier ^ attempt
  let jitter := rand * (3 / 10) * baseDelay
  min (baseDelay + jitter) maxDelayMs

/-! ### Rate limiter (`enforceRateLimit`) -/

/-- Source function `enforceRateLimit` on the ideal clock. Input: the `Date.now()` reading
`now` at entry and the stored `RATE_LIMIT.lastCallTime`. Output: the instant
at which the call completes (after the conditional `sleep`) and the new
`lastCallTime`, which the code sets to `Date.now()` right before returning. -/
def enforceRateLimit (now lastCallTime : Nat) : Nat × Nat :=
  let timeSinceLastCall := now - lastCallTime
  if timeSinceLastCall < minDelayBetweenCallsMs then
    let t := now + (minDelayBetweenCallsMs - timeSinceLastCall)
    (t, t)
  else
    (now, now)

/-! ### Model chain state (`currentModelIndex`, `getCurrentModel`,
`getNextModel`, `resetToMainModel`) -/

/-- The module-level chain state: `fallbackCount` is `fallbackModels.length`
(the chain has `fallbackCount + 1` backends) and `currentModelIndex` is the
mutable cursor. Backends are identified by their chain index:
index 0 is `primaryModel`, index `i+1` is `fallbackModels[i]`. -/
structure AIState where
  fallbackCount : Nat
  currentModelIndex : Nat
  deriving Repr, DecidableEq

/-- Source function `getCurrentModel` (assuming initialization succeeded), returning the
chain index of the model handle it yields: `primaryModel` when the cursor
is 0, `fallbackModels[cursor - 1]` when in range, and the
`|| primaryModel` fallback (index 0) when out of range. -/
def getCurrentModelIdx (s : AIState) : Nat :=
  if s.currentModelIndex = 0 then 0
  else if s.currentModelIndex - 1 < s.fallbackCount then s.currentModelIndex
  else 0

/-- Source function `getNextModel`: if `currentModelIndex < fallbackModels.length`, increment
the cursor and return (the chain index of) `fallbackModels[cursor - 1]`,
i.e. the backend at the new cursor; otherwise return `none` and leave the
state unchanged. -/
def getNextModel (s : AIState) : Option Nat × AIState :=
  if s.currentModelIndex < s.fallbackCount then
    (some (s.currentModelIndex + 1),
     { s with currentModelIndex := s.currentModelIndex + 1 })
  else
    (none, s)

/-- Source function `resetToMainModel`: set the cursor to 0 unconditionally. -/
def resetToMainModel (s : AIState) : AIState :=
  { s with currentModelIndex := 0 }

/-- Apply the state effect of `getNextModel` (`advance`) `k` times. -/
def advanceIter : Nat → AIState → AIState
  | 0, s => s
  | k + 1, s => advanceIter k (getNextModel s).2

/-! ### The orchestrator (`executeWithRetry`) -/

/-- A suspension point of the orchestrator other than the rate limiter:
a backoff sleep of `calculateBackoffDelay(retry)` (the retry index on the
current backend is recorded; the jitter draw is left abstract), or the fixed
2000 ms inter-model cool-down `sleep(2000)`. -/
inductive SleepEvent where
  | backoff (retry : Nat)
  | interModel
  deriving Repr, DecidableEq

/-- Outcome of one `executeWithRetry` call, mirroring its three exits:
normal return, the `throw lastError` on a non-retryable error, and the final
``throw new Error(`${operationName} failed after ${totalAttempts} total
attempts ... Last error: ${lastError?.message}`)`` (the `ExhaustedError`),
kept structured with the fields interpolated into that message. -/
inductive ExecOutcome (T : Type) where
  | ok (v : T)
  | fatal (msg : String)
  | exhausted (operationName : String) (totalAttempts : Nat)
      (lastErrorMsg : Option String)
  deriving Repr, DecidableEq

/-- How the inner retry loop on one backend ended. -/
inductive InnerResult (T : Type) where
  | success (v : T)
  | fatalThrow (msg : String)
  | exhaustedRetries
  deriving Repr, DecidableEq

/-- Result of a loop stage: how it ended, the running `totalAttempts`, the
running `lastError` message, and the accumulated sleep events. -/
structure LoopOut (T : Type) where
  inner : InnerResult T
  totalAttempts : Nat
  lastError : Option String
  sleeps : List SleepEvent
  deriving Repr, DecidableEq

/-- The inner `for (retry = 0; retry < maxRetries; retry++)` loop of
`executeWithRetry`, on the backend with chain index `modelIdx`.
`retriesLeft` is the number of iterations still to run and `retryIdx` the
current value of `retry`. The operation `op` receives the 0-based global
attempt ordinal (the value of `totalAttempts` before its increment) and the
backend's chain index. -/
def retryLoop {T : Type} (op : Nat → Nat → Except Thrown T) (modelIdx : Nat) :
    Nat → Nat → Nat → Option String → List SleepEvent → LoopOut T
  | 0, _, totalAttempts, lastError, sleeps =>
    ⟨.exhaustedRetries, totalAttempts, lastError, sleeps⟩
  | retriesLeft + 1, retryIdx, totalAttempts, lastError, sleeps =>
    match op totalAttempts modelIdx with
    | .ok v => ⟨.success v, totalAttempts + 1, lastError, sleeps⟩
    | .error e =>
      let le := some (wrapMsg e)
      if isRetryableError e then
        retryLoop op modelIdx retriesLeft (retryIdx + 1) (totalAttempts + 1) le
          (sleeps ++ [.backoff retryIdx])
      else
        ⟨.fatalThrow (wrapMsg e), totalAttempts + 1, le, sleeps⟩

/-- Final result of `executeWithRetry`: the outcome, the chain state after
the call, the final `totalAttempts` counter, and the sleep events. -/
structure ExecOut (T : Type) where
  outcome : ExecOutcome T
  finalState : AIState
  attempts : Nat
  sleeps : List SleepEvent
  deriving Repr, DecidableEq

/-- The outer `for (modelAttempt = 0; modelAttempt <= fallbackModels.length;
modelAttempt++)` loop. `fuel` is the number of iterations still allowed by
that bound. Each iteration reads the current model, runs the retry loop, and
on retry exhaustion advances the chain (`getNextModel`), breaking when the
chain is exhausted. Falling out of the loop (either way) runs
`resetToMainModel()` and throws the exhausted error. -/
def modelLoop {T : Type} (op : Nat → Nat → Except Thrown T)
    (operationName : String) :
    Nat → AIState → Nat → Option String → List SleepEvent → ExecOut T
  | 0, s, totalAttempts, lastError, sleeps =>
    ⟨.exhausted operationName totalAttempts lastError,
     resetToMainModel s, totalAttempts, sleeps⟩
  | fuel + 1, s, totalAttempts, lastError, sleeps =>
    let modelIdx := getCurrentModelIdx s
    let r := retryLoop op modelIdx maxRetries 0 totalAttempts lastError sleeps
    match r.inner with
    | .success v => ⟨.ok v, s, r.totalAttempts, r.sleeps⟩
    | .fatalThrow m => ⟨.fatal m, s, r.totalAttempts, r.sleeps⟩
    | .exhaustedRetries =>
      match getNextModel s with
      | (none, s') =>
        ⟨.exhausted operationName r.totalAttempts r.lastError,
         resetToMainModel s', r.totalAttempts, r.sleeps⟩
      | (some _, s') =>
        modelLoop op operationName fuel s' r.totalAttempts r.lastError
          (r.sleeps ++ [.interModel])

/-- Source function `executeWithRetry(operation, operationName)` started in chain state `s`.
The outer loop bound `modelAttempt <= fallbackModels.length` allows
`fallbackCount + 1` iterations. -/
def executeWithRetry {T : Type} (op : Nat → Nat → Except Thrown T)
    (operationName : String) (s : AIState) : ExecOut T :=
  modelLoop op operationName (s.fallbackCount + 1) s 0 none []

/-- An operation that throws on every attempt, with `errAt` giving the value
thrown at each (global attempt ordinal, backend chain index). -/
def alwaysThrow {T : Type} (errAt : Nat → Nat → Thrown) :
    Nat → Nat → Except Thrown T :=
  fun n m => .error (errAt n m)

/-! ### JSON values and `JSON.parse` -/

/-- A parsed JSON value (`JSON.parse` result). Numbers are modelled by `ℚ`,
which represents every decimal literal exactly. -/
inductive Json where
  | null
  | bool (b : Bool)
  | num (q : ℚ)
  | str (s : String)
  | arr (elems : List Json)
  | obj (fields : List (String × Json))

mutual

/-- Boolean equality on JSON values. -/
def jsonBeq : Json → Json → Bool
  | .null, .null => true
  | .bool a, .bool b => a = b
  | .num a, .num b => a = b
  | .str a, .str b => a = b
  | .arr xs, .arr ys => jsonListBeq xs ys
  | .obj fs, .obj gs => jsonFieldsBeq fs gs
  | _, _ => false

/-- Boolean equality on lists of JSON values. -/
def jsonListBeq : List Json → List Json → Bool
  | [], [] => true
  | x :: xs, y :: ys => jsonBeq x y && jsonListBeq xs ys
  | _, _ => false

/-- Boolean equality on JSON object field lists. -/
def jsonFieldsBeq : List (String × Json) → List (String × Json) → Bool
  | [], [] => true
  | (k₁, v₁) :: xs, (k₂, v₂) :: ys =>
    (k₁ = k₂ : Bool) && jsonBeq v₁ v₂ && jsonFieldsBeq xs ys
  | _, _ => false

end

mutual

/-- Function `jsonBeq` decides equality of JSON values. -/
theorem jsonBeq_iff : (a b : Json) → (jsonBeq a b = true ↔ a = b)
  | .null, .null => by simp [jsonBeq]
  | .bool a, .bool b => by simp [jsonBeq]
  | .num a, .num b => by simp [jsonBeq]
  | .str a, .str b => by simp [jsonBeq]
  | .arr xs, .arr ys => by simp [jsonBeq, jsonListBeq_iff xs ys]
  | .obj fs, .obj gs => by simp [jsonBeq, jsonFieldsBeq_iff fs gs]
  | .null, .bool _ | .null, .num _ | .null, .str _ | .null, .arr _
  | .null, .obj _ | .bool _, .null | .bool _, .num _ | .bool _, .str _
  | .bool _, .arr _ | .bool _, .obj _ | .num _, .null | .num _, .bool _
  | .num _, .str _ | .num _, .arr _ | .num _, .obj _ | .str _, .null
  | .str _, .bool _ | .str _, .num _ | .str _, .arr _ | .str _, .obj _
  | .arr _, .null | .arr _, .bool _ | .arr _, .num _ | .arr _, .str _
  | .arr _, .obj _ | .obj _, .null | .obj _, .bool _ | .obj _, .num _
  | .obj _, .str _ | .obj _, .arr _ => by simp [jsonBeq]

/-- Function `jsonListBeq` decides equality of JSON value lists. -/
theorem jsonListBeq_iff : (xs ys : List Json) → (jsonListBeq xs ys = true ↔ xs = ys)
  | [], [] => by simp [jsonListBeq]
  | x :: xs, y :: ys => by
    simp [jsonListBeq, jsonBeq_iff x y, jsonListBeq_iff xs ys]
  | [], _ :: _ => by simp [jsonListBeq]
  | _ :: _, [] => by simp [jsonListBeq]

/-- Function `jsonFieldsBeq` decides equality of JSON field lists. -/
theorem jsonFieldsBeq_iff :
    (fs gs : List (String × Json)) → (jsonFieldsBeq fs gs = true ↔ fs = gs)
  | [], [] => by simp [jsonFieldsBeq]
  | (k₁, v₁) :: xs, (k₂, v₂) :: ys => by
    simp [jsonFieldsBeq, jsonBeq_iff v₁ v₂, jsonFieldsBeq_iff xs ys, and_assoc]
  | [], _ :: _ => by simp [jsonFieldsBeq]
  | _ :: _, [] => by simp [jsonFieldsBeq]

end

instance : DecidableEq Json := fun a b =>
  decidable_of_iff (jsonBeq a b = true) (jsonBeq_iff a b)

/-- JSON insignificant whitespace (space, tab, line feed, carriage return). -/
def isJsonWs (c : Char) : Bool :=
  c = ' ' || c = '\t' || c = '\n' || c = '\r'

/-- Whether a character is a hexadecimal digit. -/
def isHexDig (c : Char) : Bool :=
  ('0' ≤ c ∧ c ≤ '9') ∨ ('a' ≤ c ∧ c ≤ 'f') ∨ ('A' ≤ c ∧ c ≤ 'F')

/-- Value of one hexadecimal digit. -/
def hexVal (c : Char) : Nat :=
  if '0' ≤ c ∧ c ≤ '9' then c.toNat - '0'.toNat
  else if 'a' ≤ c ∧ c ≤ 'f' then c.toNat - 'a'.toNat + 10
  else if 'A' ≤ c ∧ c ≤ 'F' then c.toNat - 'A'.toNat + 10
  else 0

/-- Body of a JSON string after the opening quote: returns the decoded
characters and the rest after the closing quote, handling the escape
sequences of the JSON grammar. -/
def takeStringBody : List Char → Option (List Char × List Char)
  | [] => none
  | '"' :: rest => some ([], rest)
  | '\\' :: 'u' :: a :: b :: c :: d :: rest =>
    if isHexDig a && isHexDig b && isHexDig c && isHexDig d then
      let ch := Char.ofNat (4096 * hexVal a + 256 * hexVal b + 16 * hexVal c + hexVal d)
      match takeStringBody rest with
      | some (cs, r) => some (ch :: cs, r)
      | none => none
    else none
  | '\\' :: e :: rest =>
    let dec : Option Char :=
      if e = '"' then some '"'
      else if e = '\\' then some '\\'
      else if e = '/' then some '/'
      else if e = 'b' then some (Char.ofNat 8)
      else if e = 'f' then some (Char.ofNat 12)
      else if e = 'n' then some '\n'
      else if e = 'r' then some '\r'
      else if e = 't' then some '\t'
      else none
    match dec with
    | none => none
    | some ch =>
      match takeStringBody rest with
      | some (cs, r) => some (ch :: cs, r)
      | none => none
  | c :: rest =>
    match takeStringBody rest with
    | some (cs, r) => some (c :: cs, r)
    | none => none

/-- Digits folded to a natural number. -/
def digitsToNat (ds : List Char) : Nat :=
  ds.foldl (fun acc c => 10 * acc + (c.toNat - '0'.toNat)) 0

/-- A JSON number literal: `-? int frac? exp?` with the JSON grammar's
leading-zero restriction. Returns its exact rational value and the rest. -/
def parseNumber (s : List Char) : Option (ℚ × List Char) :=
  let (neg, s1) := match s with
    | '-' :: t => (true, t)
    | _ => (false, s)
  let intDs := s1.takeWhile Char.isDigit
  let s2 := s1.dropWhile Char.isDigit
  if intDs.isEmpty then none
  else if intDs.length > 1 ∧ intDs.headD '0' = '0' then none
  else
    let (fracDs, s3) := match s2 with
      | '.' :: t => (t.takeWhile Char.isDigit, t.dropWhile Char.isDigit)
      | _ => ([], s2)
    if s2.headD ' ' = '.' ∧ fracDs.isEmpty then none
    else
      let hasExp := s3.headD ' ' = 'e' ∨ s3.headD ' ' = 'E'
      let s4 := if hasExp then s3.tail else s3
      let (expNeg, s5) := match s4 with
        | '+' :: t => (false, t)
        | '-' :: t => (true, t)
        | _ => (false, s4)
      let expDs := s5.takeWhile Char.isDigit
      let s6 := s5.dropWhile Char.isDigit
      if hasExp ∧ expDs.isEmpty then none
      else
        let rest := if hasExp then s6 else s3
        let mag : Nat := digitsToNat (intDs ++ fracDs)
        let signedMag : Int := if neg then -(mag : Int) else (mag : Int)
        let expo : Nat := if hasExp then digitsToNat expDs else 0
        let q : ℚ :=
          if hasExp ∧ expNeg then
            mkRat signedMag (10 ^ (fracDs.length + expo))
          else
            mkRat (signedMag * (10 : Int) ^ expo) (10 ^ fracDs.length)
        some (q, rest)

mutual

/-- One JSON value, fuel-bounded recursive descent (`JSON.parse` grammar).
Leading whitespace is skipped; the rest of the input is returned. -/
def parseValue : Nat → List Char → Option (Json × List Char)
  | 0, _ => none
  | fuel + 1, s =>
    let s := s.dropWhile isJsonWs
    match s with
    | [] => none
    | '{' :: rest => parseMembers fuel (rest.dropWhile isJsonWs) []
    | '[' :: rest => parseItems fuel (rest.dropWhile isJsonWs) []
    | '"' :: rest =>
      match takeStringBody rest with
      | some (cs, r) => some (.str (String.mk cs), r)
      | none => none
    | 't' :: rest =>
      if "rue".data.isPrefixOf rest then some (.bool true, rest.drop 3) else none
    | 'f' :: rest =>
      if "alse".data.isPrefixOf rest then some (.bool false, rest.drop 4) else none
    | 'n' :: rest =>
      if "ull".data.isPrefixOf rest then some (.null, rest.drop 3) else none
    | c :: rest =>
      match parseNumber (c :: rest) with
      | some (q, r) => some (.num q, r)
      | none => none

/-- Object members after `{` (whitespace already skipped), accumulating
parsed fields in order. -/
def parseMembers : Nat → List Char → List (String × Json) →
    Option (Json × List Char)
  | 0, _, _ => none
  | _ + 1, '}' :: rest, acc => some (.obj acc.reverse, rest)
  | fuel + 1, '"' :: rest, acc =>
    match takeStringBody rest with
    | none => none
    | some (key, r1) =>
      match r1.dropWhile isJsonWs with
      | ':' :: r2 =>
        match parseValue fuel r2 with
        | none => none
        | some (v, r3) =>
          let acc := (String.mk key, v) :: acc
          match r3.dropWhile isJsonWs with
          | ',' :: r4 =>
            match r4.dropWhile isJsonWs with
            | '}' :: _ => none
            | r5 => parseMembers fuel r5 acc
          | '}' :: r4 => some (.obj acc.reverse, r4)
          | _ => none
      | _ => none
  | _ + 1, _, _ => none

/-- Array items after `[` (whitespace already skipped). -/
def parseItems : Nat → List Char → List Json → Option (Json × List Char)
  | 0, _, _ => none
  | _ + 1, ']' :: rest, acc => some (.arr acc.reverse, rest)
  | fuel + 1, s, acc =>
    match parseValue fuel s with
    | none => none
    | some (v, r1) =>
      let acc := v :: acc
      match r1.dropWhile isJsonWs with
      | ',' :: r2 =>
        match r2.dropWhile isJsonWs with
        | ']' :: _ => none
        | r3 => parseItems fuel r3 acc
      | ']' :: r2 => some (.arr acc.reverse, r2)
      | _ => none

end

/-- Model of `JSON.parse(text)`: a whole-input JSON value (trailing whitespace only). -/
def jsonParse (text : List Char) : Option Json :=
  match parseValue (text.length + 1) text with
  | some (v, rest) => if (rest.dropWhile isJsonWs).isEmpty then some v else none
  | none => none

/-! ### `extractJson` and its two regex tiers -/

/-- Split `s` at the first occurrence of `pat` (a non-empty pattern):
returns the part before the occurrence and the part after it. -/
def splitAtSub (pat : List Char) : List Char → Option (List Char × List Char)
  | [] => none
  | c :: cs =>
    if pat.isPrefixOf (c :: cs) then some ([], (c :: cs).drop pat.length)
    else
      match splitAtSub pat cs with
      | some (pre, post) => some (c :: pre, post)
      | none => none

/-- JavaScript `\s` (the whitespace class), on the ASCII range. -/
def isJsWs (c : Char) : Bool :=
  c = ' ' || c = '\t' || c = '\n' || c = '\r' ||
  c = Char.ofNat 11 || c = Char.ofNat 12

/-- The first tier of `extractJson`: the capture of
`text.match(/` ``` `(?:json)?\s*([\s\S]*?)` ``` `/)`. After the first
` ``` ` fence, an optional literal `json` tag and a maximal whitespace run
are skipped; the capture is the (lazy, hence shortest) run of characters up
to the next ` ``` ` fence. No match is reported when no closing fence
follows the first opening fence (no later start can succeed then, since the
skipped characters contain no backtick). -/
def matchCodeBlock (s : List Char) : Option (List Char) :=
  match splitAtSub "```".data s with
  | none => none
  | some (_, afterFence) =>
    let afterTag :=
      if "json".data.isPrefixOf afterFence then afterFence.drop 4 else afterFence
    let afterWs := afterTag.dropWhile isJsWs
    match splitAtSub "```".data afterWs with
    | some (interior, _) => some interior
    | none => none

/-- Model of `String.prototype.trim()`: strip whitespace from both ends. -/
def jsTrim (s : List Char) : List Char :=
  ((s.dropWhile isJsWs).reverse.dropWhile isJsWs).reverse

/-- The second tier of `extractJson`: `text.match(/\{[\s\S]*\}/)`. The
leftmost start is the first `{`, and the greedy `[\s\S]*` extends the match
to the last `}` of the text; there is a match exactly when some `}` occurs
after the first `{`. -/
def matchBraces (s : List Char) : Option (List Char) :=
  match s.findIdx? (· = '{'), s.reverse.findIdx? (· = '}') with
  | some i, some jr =>
    let j := s.length - 1 - jr
    if i < j then some ((s.drop i).take (j - i + 1)) else none
  | _, _ => none

/-- How an `extractJson` call can fail: a `SyntaxError` escaping from
`JSON.parse`, or the function's own
`throw new Error('No valid JSON found in response')`. -/
inductive ExtractFailure where
  | syntaxError
  | noValidJsonFound
  deriving Repr, DecidableEq

instance {ε α : Type} [DecidableEq ε] [DecidableEq α] :
    DecidableEq (Except ε α)
  | .ok a, .ok b => decidable_of_iff (a = b) (by simp)
  | .error a, .error b => decidable_of_iff (a = b) (by simp)
  | .ok _, .error _ => isFalse (by simp)
  | .error _, .ok _ => isFalse (by simp)

/-- Source function `extractJson(text)`: parse the trimmed interior of the first fenced code
block if one is found (a parse failure there escapes as a `SyntaxError`);
otherwise parse the first-`{`-to-last-`}` span if one exists (again letting
a parse failure escape); otherwise throw the no-valid-JSON error. -/
def extractJson (text : List Char) : Except ExtractFailure Json :=
  match matchCodeBlock text with
  | some interior =>
    match jsonParse (jsTrim interior) with
    | some v => .ok v
    | none => .error .syntaxError
  | none =>
    match matchBraces text with
    | some span =>
      match jsonParse span with
      | some v => .ok v
      | none => .error .syntaxError
    | none => .error .noValidJsonFound

/-! ## Theorems about the specification claims -/

/-- Cursor arithmetic of iterated `advance` from the primary backend. -/
lemma advanceIter_from (F : Nat) :
    ∀ (j i : Nat), i + j ≤ F → advanceIter j ⟨F, i⟩ = ⟨F, i + j⟩ := by
  intro j
  induction j with
  | zero => intro i _; simp [advanceIter]
  | succ k ih =>
    intro i hij
    have hi : i < F := by omega
    have : (getNextModel ⟨F, i⟩).2 = ⟨F, i + 1⟩ := by
      simp [getNextModel, hi]
    rw [advanceIter, this, ih (i + 1) (by omega)]
    congr 1
    omega

/-- C6: For every `Error` value, `isRetryableError` returns true iff the
message, lower-cased, contains one of the nine retryable keywords as a
substring; in particular it is true for messages "429", "Quota exceeded"
and "network error" and false for "invalid argument" and
"permission denied". Non-`Error` thrown values are never retryable. -/
theorem isRetryable_keyword_iff :
    (∀ msg : String, isRetryableError (.err msg) = true ↔
      ∃ k ∈ retryableKeywords, containsSub k.data (lowerChars msg) = true) ∧
    isRetryableError (.err "429") = true ∧
    isRetryableError (.err "Quota exceeded") = true ∧
    isRetryableError (.err "network error") = true ∧
    isRetryableError (.err "invalid argument") = false ∧
    isRetryableError (.err "permission denied") = false := by
  refine ⟨fun msg => ?_, by decide, by decide, by decide, by decide, by decide⟩
  simp only [isRetryableError, retryableKeywords, Bool.or_eq_true,
    List.mem_cons, List.not_mem_nil, or_false, exists_eq_or_imp,
    exists_eq_left]
  tauto

/-- C7: `advance` (`getNextModel`) increments the cursor and returns the
backend at the new cursor exactly when `cursor + 1 < N` (with
`N = fallbackCount + 1` backends), and otherwise returns `none` leaving the
state unchanged; starting from the primary, the `j`-th of the first `N - 1`
calls returns a backend (the one `current` then yields), the `N`-th call
returns `none`, and `reset` afterwards makes `current` yield the primary. -/
theorem modelChain_advance_reset (F j : Nat) (hj : j < F) :
    (∀ s : AIState, s.currentModelIndex + 1 < s.fallbackCount + 1 →
      getNextModel s =
        (some (s.currentModelIndex + 1),
         ⟨s.fallbackCount, s.currentModelIndex + 1⟩)) ∧
    (∀ s : AIState, ¬ s.currentModelIndex + 1 < s.fallbackCount + 1 →
      getNextModel s = (none, s)) ∧
    (getNextModel (advanceIter j ⟨F, 0⟩)).1 = some (j + 1) ∧
    getCurrentModelIdx (getNextModel (advanceIter j ⟨F, 0⟩)).2 = j + 1 ∧
    (getNextModel (advanceIter F ⟨F, 0⟩)).1 = none ∧
    (getNextModel (advanceIter F ⟨F, 0⟩)).2 = advanceIter F ⟨F, 0⟩ ∧
    getCurrentModelIdx (resetToMainModel (advanceIter F ⟨F, 0⟩)) = 0 := by
  have hjF : advanceIter j ⟨F, 0⟩ = ⟨F, j⟩ := by
    simpa using advanceIter_from F j 0 (by omega)
  have hFF : advanceIter F ⟨F, 0⟩ = ⟨F, F⟩ := by
    simpa using advanceIter_from F F 0 (by omega)
  refine ⟨fun s hs => ?_, fun s hs => ?_, ?_, ?_, ?_, ?_, ?_⟩
  · simp [getNextModel, show s.currentModelIndex < s.fallbackCount by omega]
  · simp [getNextModel, show ¬ s.currentModelIndex < s.fallbackCount by omega]
  · simp [hjF, getNextModel, hj]
  · simp [hjF, getNextModel, hj, getCurrentModelIdx, Nat.lt_irrefl]
  · simp [hFF, getNextModel]
  · simp [hFF, getNextModel]
  · simp [hFF, resetToMainModel, getCurrentModelIdx]

/-- Witness for `modelChain_advance_reset` on a 4-backend chain
(`fallbackCount = 3`), second advance. -/
theorem modelChain_advance_reset_witness :
    (getNextModel (advanceIter 1 ⟨3, 0⟩)).1 = some 2 ∧
    (getNextModel (advanceIter 3 ⟨3, 0⟩)).1 = none ∧
    getCurrentModelIdx (resetToMainModel (advanceIter 3 ⟨3, 0⟩)) = 0 := by
  obtain ⟨-, -, h1, -, h2, -, h3⟩ := modelChain_advance_reset 3 1 (by decide)
  exact ⟨h1, h2, h3⟩

/-- C4, counterexample: at `attemptIndex = 5` with a zero jitter draw
(`Math.random() = 0`, a jitter of 0 ∈ [0, 0.3)), the delay is 30000 ms,
which is strictly below the un-jittered exponential value
`base * multiplier^5 = 32000` — so the claimed lower bound
`base * multiplier^attemptIndex ≤ delay` fails, and the delay does not
exceed `maxDelay`: the clamp is applied after jitter, not before. -/
theorem backoff_lower_bound_counterexample :
    calculateBackoffDelay 0 5 = 30000 ∧
    baseDelayMs * backoffMultiplier ^ 5 = 32000 ∧
    ¬ baseDelayMs * backoffMultiplier ^ 5 ≤ calculateBackoffDelay 0 5 ∧
    ¬ maxDelayMs < calculateBackoffDelay 0 5 := by
  refine ⟨?_, ?_, ?_, ?_⟩ <;>
    norm_num [calculateBackoffDelay, baseDelayMs, backoffMultiplier,
      maxDelayMs, min_def]

/-- Equation for `calculateBackoffDelay` with its lets unfolded. -/
lemma calculateBackoffDelay_eq (rand : ℚ) (attempt : Nat) :
    calculateBackoffDelay rand attempt =
      min (baseDelayMs * backoffMultiplier ^ attempt +
        rand * (3 / 10) * (baseDelayMs * backoffMultiplier ^ attempt))
        maxDelayMs := rfl

/-- C4, amended: for every `attemptIndex` and every jitter draw
`rand ∈ [0, 1)` (so a jitter of 0–30% of the un-clamped exponential), the
delay equals `min (base * multiplier^attemptIndex * (1 + 0.3 * rand))`
clamped to `maxDelay`; hence it lies between
`min (base * multiplier^attemptIndex) maxDelay` and
`1.3 * min (base * multiplier^attemptIndex) maxDelay`, and it never exceeds
`maxDelay` (the clamp is applied after jitter). -/
theorem backoff_delay_bounds (rand : ℚ) (attempt : Nat)
    (h0 : 0 ≤ rand) (h1 : rand < 1) :
    min (baseDelayMs * backoffMultiplier ^ attempt) maxDelayMs ≤
      calculateBackoffDelay rand attempt ∧
    calculateBackoffDelay rand attempt ≤ maxDelayMs ∧
    calculateBackoffDelay rand attempt ≤
      (13 / 10) * min (baseDelayMs * backoffMultiplier ^ attempt) maxDelayMs := by
  have hbd : (0 : ℚ) < baseDelayMs * backoffMultiplier ^ attempt := by
    simp only [baseDelayMs, backoffMultiplier]
    positivity
  have hmax : (0 : ℚ) < maxDelayMs := by norm_num [maxDelayMs]
  simp only [calculateBackoffDelay_eq]
  set bd := baseDelayMs * backoffMultiplier ^ attempt with hbddef
  have hj0 : 0 ≤ rand * (3 / 10) * bd := by positivity
  have hj1 : rand * (3 / 10) * bd ≤ (3 / 10) * bd := by nlinarith
  refine ⟨?_, min_le_right _ _, ?_⟩
  · exact min_le_min (le_add_of_nonneg_right hj0) (le_refl maxDelayMs)
  · rcases le_total bd maxDelayMs with hc | hc
    · rw [min_eq_left hc]
      exact le_trans (min_le_left _ _) (by nlinarith)
    · rw [min_eq_right hc]
      exact le_trans (min_le_right _ _) (by nlinarith)

/-- Witness for `backoff_delay_bounds` at `rand = 0`, `attempt = 5`. -/
theorem backoff_delay_bounds_witness :
    (0 : ℚ) ≤ 0 ∧ (0 : ℚ) < 1 ∧
    (min (baseDelayMs * backoffMultiplier ^ 5) maxDelayMs ≤
      calculateBackoffDelay 0 5 ∧
    calculateBackoffDelay 0 5 ≤ maxDelayMs) :=
  ⟨le_refl 0, zero_lt_one,
   (backoff_delay_bounds 0 5 (le_refl 0) zero_lt_one).1,
   (backoff_delay_bounds 0 5 (le_refl 0) zero_lt_one).2.1⟩

/-- Both components of `enforceRateLimit` are the completion instant. -/
lemma enforceRateLimit_eq (now last : Nat) :
    enforceRateLimit now last =
      (if now - last < minDelayBetweenCallsMs
        then now + (minDelayBetweenCallsMs - (now - last)) else now,
       if now - last < minDelayBetweenCallsMs
        then now + (minDelayBetweenCallsMs - (now - last)) else now) := by
  simp only [enforceRateLimit]
  split <;> rfl

/-- C9: two back-to-back `enforceRateLimit` calls on the ideal clock: if the
second call starts at or after the instant the first completed, the gap
between the two completion instants is at least
`minDelayBetweenCallsMs`, and each call records its completion instant as
the new last-call time. -/
theorem rateLimiter_min_spacing (t0 last0 t1 : Nat)
    (h1 : (enforceRateLimit t0 last0).1 ≤ t1) :
    minDelayBetweenCallsMs ≤
      (enforceRateLimit t1 (enforceRateLimit t0 last0).2).1 -
        (enforceRateLimit t0 last0).1 ∧
    (enforceRateLimit t0 last0).2 = (enforceRateLimit t0 last0).1 ∧
    (enforceRateLimit t1 (enforceRateLimit t0 last0).2).2 =
      (enforceRateLimit t1 (enforceRateLimit t0 last0).2).1 := by
  have key : ∀ c t : Nat, c ≤ t →
      minDelayBetweenCallsMs ≤
        (if t - c < minDelayBetweenCallsMs
          then t + (minDelayBetweenCallsMs - (t - c)) else t) - c := by
    intro c t h
    simp only [minDelayBetweenCallsMs] at *
    split <;> omega
  simp only [enforceRateLimit_eq] at h1 ⊢
  refine ⟨key _ _ h1, ?_, ?_⟩ <;> trivial

/-- Witness for `rateLimiter_min_spacing`: first call at `t = 1000` with
`lastCallTime = 0` (no wait), second call entered immediately at 1000. -/
theorem rateLimiter_min_spacing_witness :
    (enforceRateLimit 1000 0).1 ≤ 1000 ∧
    minDelayBetweenCallsMs ≤
      (enforceRateLimit 1000 (enforceRateLimit 1000 0).2).1 -
        (enforceRateLimit 1000 0).1 :=
  ⟨by decide, (rateLimiter_min_spacing 1000 0 1000 (by decide)).1⟩

end ImageSuperMagic

namespace ImageSuperMagic

/-- C5, counterexample: on the input `"```nope``` {\"a\":1}"` a fenced code
block is found whose interior `nope` fails to parse, and the raw text
contains the parseable object literal `{"a":1}`; the claim then requires the
second tier to run and `{a: 1}` to be returned, but `extractJson` instead
propagates the parse failure (a `SyntaxError`, not an `ExtractionError`):
the first tier's parse failure is not caught. -/
theorem extractJson_no_fallthrough_counterexample :
    extractJson "```nope``` \x7b\"a\":1\x7d".data = .error .syntaxError ∧
    matchCodeBlock "```nope``` \x7b\"a\":1\x7d".data = some "nope".data ∧
    jsonParse (jsTrim "nope".data) = none ∧
    matchBraces "```nope``` \x7b\"a\":1\x7d".data = some "\x7b\"a\":1\x7d".data ∧
    jsonParse "\x7b\"a\":1\x7d".data = some (.obj [("a", .num 1)]) := by
  refine ⟨by decide, by decide, by decide, by decide, by decide⟩

/-- C5, amended: `extractJson` first looks for a fenced code block and, if
one is found, parses its trimmed interior, letting a parse failure
propagate as a `SyntaxError` without trying the second tier; only when no
fenced block exists does it parse the span from the first `{` to the last
`}` of the raw text (a greedy match, not the first balanced object
literal), again letting a parse failure propagate; `ExtractionError` is
raised only when neither a fenced block nor such a brace span exists. The
spec's three concrete cases hold: a fenced block containing `{"a":1}`
yields `{a: 1}`; `Here is data: {"a":1} done` (no fences) yields `{a: 1}`;
input with no braces raises `ExtractionError`. The greedy second tier is
visible on `start {"a":1} mid {"b":2} end`, whose first balanced object
would parse but whose first-`{`-to-last-`}` span does not. -/
theorem extractJson_two_tier :
    extractJson "```json\n\x7b\"a\":1\x7d\n```".data = .ok (.obj [("a", .num 1)]) ∧
    extractJson "Here is data: \x7b\"a\":1\x7d done".data =
      .ok (.obj [("a", .num 1)]) ∧
    extractJson "no braces at all".data = .error .noValidJsonFound ∧
    extractJson "```bad``` \x7b\"a\":1\x7d".data = .error .syntaxError ∧
    extractJson "start \x7b\"a\":1\x7d mid \x7b\"b\":2\x7d end".data =
      .error .syntaxError ∧
    matchBraces "start \x7b\"a\":1\x7d mid \x7b\"b\":2\x7d end".data =
      some "\x7b\"a\":1\x7d mid \x7b\"b\":2\x7d".data ∧
    jsonParse "\x7b\"a\":1\x7d".data = some (.obj [("a", .num 1)]) := by
  refine ⟨by decide, by decide, by decide, by decide, by decide, by decide,
    by decide⟩

end ImageSuperMagic

namespace ImageSuperMagic

/-- When the operation throws a retryable error on every attempt, the retry
loop spends all its iterations, counts one attempt per iteration, and ends
holding the error of the last attempt. -/
lemma retryLoop_allRetryable {T : Type} (errF : Nat → Nat → Thrown)
    (hret : ∀ n m, isRetryableError (errF n m) = true) (mi : Nat) :
    ∀ (k ri ta : Nat) (le : Option String) (sl : List SleepEvent),
      ∃ sl', retryLoop (alwaysThrow (T := T) errF) mi k ri ta le sl =
        ⟨.exhaustedRetries, ta + k,
         if k = 0 then le else some (wrapMsg (errF (ta + k - 1) mi)), sl'⟩ := by
  intro k
  induction k with
  | zero => intro ri ta le sl; exact ⟨sl, rfl⟩
  | succ n ih =>
    intro ri ta le sl
    obtain ⟨sl', hsl'⟩ :=
      ih (ri + 1) (ta + 1) (some (wrapMsg (errF ta mi))) (sl ++ [.backoff ri])
    refine ⟨sl', ?_⟩
    rw [retryLoop, alwaysThrow]
    simp only [hret ta mi, if_true]
    rw [hsl']
    rcases n with - | n'
    · simp
    · have e1 : ta + 1 + (n' + 1) = ta + (n' + 1 + 1) := by omega
      rw [e1, if_neg (by omega : ¬ n' + 1 = 0),
        if_neg (by omega : ¬ n' + 1 + 1 = 0)]

end ImageSuperMagic

namespace ImageSuperMagic

/-- With a cursor within range, `getCurrentModel` yields the backend at the
cursor. -/
lemma getCurrentModelIdx_of_le (F i : Nat) (h : i ≤ F) :
    getCurrentModelIdx ⟨F, i⟩ = i := by
  rcases Nat.eq_zero_or_pos i with h0 | h0
  · simp [getCurrentModelIdx, h0]
  · have : i - 1 < F := by omega
    simp [getCurrentModelIdx, this, Nat.pos_iff_ne_zero.mp h0]

/-- When the operation throws a retryable error on every attempt, the outer
loop of `executeWithRetry`, entered at a cursor `i ≤ F` with enough fuel,
spends `maxRetries` attempts on each of the remaining `F - i + 1` backends,
ends with the error of the very last attempt (made on the last backend `F`),
and resets the cursor to the primary before throwing. -/
lemma modelLoop_allRetryable {T : Type} (errF : Nat → Nat → Thrown)
    (hret : ∀ n m, isRetryableError (errF n m) = true) (name : String)
    (F : Nat) :
    ∀ (f i ta : Nat) (le : Option String) (sl : List SleepEvent),
      i ≤ F → F - i < f →
      ∃ sl', modelLoop (alwaysThrow (T := T) errF) name f ⟨F, i⟩ ta le sl =
        ⟨.exhausted name (ta + (F - i + 1) * maxRetries)
          (some (wrapMsg (errF (ta + (F - i + 1) * maxRetries - 1) F))),
         ⟨F, 0⟩, ta + (F - i + 1) * maxRetries, sl'⟩ := by
  intro f
  induction f with
  | zero => intro i ta le sl hle hf; omega
  | succ f' ih =>
    intro i ta le sl hle hf
    have hcur : getCurrentModelIdx ⟨F, i⟩ = i := getCurrentModelIdx_of_le F i hle
    obtain ⟨sl', hr⟩ :=
      retryLoop_allRetryable (T := T) errF hret i maxRetries 0 ta le sl
    rcases Nat.lt_or_ge i F with hiF | hiF
    · -- still a fallback left: advance and recurse
      have hnext : getNextModel ⟨F, i⟩ = (some (i + 1), ⟨F, i + 1⟩) := by
        simp [getNextModel, hiF]
      obtain ⟨sl'', hrec⟩ :=
        ih (i + 1) (ta + maxRetries)
          (some (wrapMsg (errF (ta + maxRetries - 1) i)))
          (sl' ++ [.interModel]) (by omega) (by omega)
      refine ⟨sl'', ?_⟩
      rw [modelLoop, hcur, hr]
      simp only [if_neg (by norm_num [maxRetries] : ¬ maxRetries = 0), hnext]
      rw [hrec]
      have e1 : ta + maxRetries + (F - (i + 1) + 1) * maxRetries =
          ta + (F - i + 1) * maxRetries := by
        have : F - i = (F - (i + 1)) + 1 := by omega
        rw [this]; ring
      rw [e1]
    · -- cursor is on the last backend: chain exhausted, reset and throw
      have hiF' : i = F := by omega
      subst hiF'
      have hnone : getNextModel ⟨i, i⟩ = (none, ⟨i, i⟩) := by
        simp [getNextModel]
      refine ⟨sl', ?_⟩
      rw [modelLoop, hcur, hr]
      simp only [if_neg (by norm_num [maxRetries] : ¬ maxRetries = 0), hnone]
      simp [resetToMainModel, Nat.sub_self]

end ImageSuperMagic

namespace ImageSuperMagic

/-- C1: on a chain of `N = fallbackCount + 1` backends with the cursor on
the primary, an operation that throws a retryable error on every attempt
makes `executeWithRetry` throw the exhausted error carrying the operation
name, a total attempt count of `N * maxRetries`, and the message of the
last underlying error (the one thrown by the final attempt, made on the
last backend), with the chain cursor reset to the primary backend. -/
theorem execute_allRetryable_exhausts {T : Type} (F : Nat) (name : String)
    (errF : Nat → Nat → Thrown)
    (hret : ∀ n m, isRetryableError (errF n m) = true) :
    ∃ sl, executeWithRetry (alwaysThrow (T := T) errF) name ⟨F, 0⟩ =
      ⟨.exhausted name ((F + 1) * maxRetries)
        (some (wrapMsg (errF ((F + 1) * maxRetries - 1) F))),
       ⟨F, 0⟩, (F + 1) * maxRetries, sl⟩ := by
  obtain ⟨sl, h⟩ :=
    modelLoop_allRetryable (T := T) errF hret name F (F + 1) 0 0 none []
      (Nat.zero_le F) (by omega)
  refine ⟨sl, ?_⟩
  rw [executeWithRetry, h]
  norm_num

/-- Witness for `execute_allRetryable_exhausts`: a 3-backend chain
(`fallbackCount = 2`) and an operation always throwing `Error("429")`
gives the exhausted error with `3 * maxRetries = 9` attempts. -/
theorem execute_allRetryable_exhausts_witness :
    ∃ sl, executeWithRetry (alwaysThrow (T := Unit) (fun _ _ => .err "429"))
        "generateWithText" ⟨2, 0⟩ =
      ⟨.exhausted "generateWithText" 9 (some "429"), ⟨2, 0⟩, 9, sl⟩ :=
  execute_allRetryable_exhausts 2 "generateWithText" (fun _ _ => .err "429")
    (fun _ _ => rfl)

/-- The operation used against C2: it would succeed instantly on the
primary backend (chain index 0) but throws `Error("429")` on every other
backend. -/
def opPrimaryWouldSucceed : Nat → Nat → Except Thrown Unit :=
  fun _ m => if m = 0 then .ok () else .error (.err "429")

/-- C2, counterexample: starting with the cursor left on fallback 1 of a
3-backend chain, with an operation that would succeed on the primary
backend and throws retryable errors on the fallbacks, `executeWithRetry`
still throws the exhausted error — after only `2 * maxRetries = 6`
attempts, never attempting the primary backend (whose retry budget is
untouched) — contradicting "fails with ExhaustedError only after every
backend in the chain has exhausted its own retry budget". -/
theorem execute_exhausted_without_every_backend :
    executeWithRetry opPrimaryWouldSucceed "op" ⟨2, 1⟩ =
      ⟨.exhausted "op" 6 (some "429"), ⟨2, 0⟩, 6,
       [.backoff 0, .backoff 1, .backoff 2, .interModel,
        .backoff 0, .backoff 1, .backoff 2]⟩ ∧
    opPrimaryWouldSucceed 0 0 = .ok () ∧
    (6 : Nat) ≠ (2 + 1) * maxRetries := by
  refine ⟨by decide, by decide, by decide⟩

/-- C2, amended: `executeWithRetry` throws the exhausted error only after
every backend **from the current cursor position to the end of the chain**
has exhausted its retry budget of `maxRetries` attempts: starting at cursor
`k` on a chain of `N = fallbackCount + 1` backends, the exhausted error
reports `(N - k) * maxRetries` total attempts (backends before the cursor
are not attempted), carries the last error, and the cursor is reset. -/
theorem execute_exhausts_remaining_chain {T : Type} (F k : Nat)
    (hk : k ≤ F) (name : String) (errF : Nat → Nat → Thrown)
    (hret : ∀ n m, isRetryableError (errF n m) = true) :
    ∃ sl, executeWithRetry (alwaysThrow (T := T) errF) name ⟨F, k⟩ =
      ⟨.exhausted name ((F + 1 - k) * maxRetries)
        (some (wrapMsg (errF ((F + 1 - k) * maxRetries - 1) F))),
       ⟨F, 0⟩, (F + 1 - k) * maxRetries, sl⟩ := by
  obtain ⟨sl, h⟩ :=
    modelLoop_allRetryable (T := T) errF hret name F (F + 1) k 0 none []
      hk (by omega)
  refine ⟨sl, ?_⟩
  rw [executeWithRetry, h]
  have e1 : F - k + 1 = F + 1 - k := by omega
  rw [e1]
  norm_num

/-- Witness for `execute_exhausts_remaining_chain`: cursor on fallback 1 of
a 3-backend chain, always-retryable failures: `(3 - 1) * maxRetries = 6`
attempts. -/
theorem execute_exhausts_remaining_chain_witness :
    (1 : Nat) ≤ 2 ∧
    ∃ sl, executeWithRetry (alwaysThrow (T := Unit) (fun _ _ => .err "503"))
        "op" ⟨2, 1⟩ =
      ⟨.exhausted "op" 6 (some "503"), ⟨2, 0⟩, 6, sl⟩ :=
  ⟨by decide,
   execute_exhausts_remaining_chain 2 1 (by decide) "op"
     (fun _ _ => .err "503") (fun _ _ => rfl)⟩

end ImageSuperMagic

namespace ImageSuperMagic

/-- A non-retryable error on the first attempt makes `executeWithRetry`
rethrow it at once: one attempt, no backoff sleep, no chain advance, state
untouched. -/
lemma execute_first_attempt_fatal {T : Type} (op : Nat → Nat → Except Thrown T)
    (name : String) (s : AIState) (e : Thrown)
    (hop : op 0 (getCurrentModelIdx s) = .error e)
    (hfatal : isRetryableError e = false) :
    executeWithRetry op name s = ⟨.fatal (wrapMsg e), s, 1, []⟩ := by
  have hstep : retryLoop op (getCurrentModelIdx s) maxRetries 0 0 none [] =
      ⟨.fatalThrow (wrapMsg e), 1, some (wrapMsg e), []⟩ := by
    rw [show maxRetries = 2 + 1 from rfl, retryLoop, hop]
    simp [hfatal]
  rw [executeWithRetry, modelLoop, hstep]

/-- C3: an operation whose first attempt throws a non-retryable (fatal)
error makes `executeWithRetry` rethrow that error immediately: exactly one
attempt is made, no backoff sleep and no inter-model cool-down occurs, the
chain is not advanced, and the cursor afterwards is exactly what it was
before the call (the primary when starting there). -/
theorem execute_fatal_error_immediate {T : Type}
    (op : Nat → Nat → Except Thrown T) (name : String) (s : AIState)
    (e : Thrown) (hop : op 0 (getCurrentModelIdx s) = .error e)
    (hfatal : isRetryableError e = false) :
    executeWithRetry op name s = ⟨.fatal (wrapMsg e), s, 1, []⟩ :=
  execute_first_attempt_fatal op name s e hop hfatal

/-- Witness for `execute_fatal_error_immediate`: `Error("invalid argument")`
thrown on the first attempt on the primary backend of a 4-backend chain. -/
theorem execute_fatal_error_immediate_witness :
    ((fun _ _ => .error (.err "invalid argument")) :
        Nat → Nat → Except Thrown Unit) 0 (getCurrentModelIdx ⟨3, 0⟩) =
      .error (.err "invalid argument") ∧
    isRetryableError (.err "invalid argument") = false ∧
    executeWithRetry
        ((fun _ _ => .error (.err "invalid argument")) :
          Nat → Nat → Except Thrown Unit) "analyzeIdentity" ⟨3, 0⟩ =
      ⟨.fatal "invalid argument", ⟨3, 0⟩, 1, []⟩ :=
  ⟨rfl, rfl,
   execute_fatal_error_immediate
     (fun _ _ => .error (.err "invalid argument")) "analyzeIdentity" ⟨3, 0⟩
     (.err "invalid argument") rfl rfl⟩

/-- C10: a thrown value that is not an `Error` instance (e.g. a plain
string) is never classified retryable, so `executeWithRetry` wraps it as an
`Error` whose message is the value's string form and rethrows it
immediately on the first attempt: one attempt, no backoff, no fallback, the
chain state untouched. -/
theorem execute_nonError_value_fatal {T : Type}
    (op : Nat → Nat → Except Thrown T) (name : String) (s : AIState)
    (strv : String) (hop : op 0 (getCurrentModelIdx s) = .error (.nonErr strv)) :
    isRetryableError (.nonErr strv) = false ∧
    executeWithRetry op name s = ⟨.fatal strv, s, 1, []⟩ :=
  ⟨rfl, execute_first_attempt_fatal op name s (.nonErr strv) hop rfl⟩

/-- Witness for `execute_nonError_value_fatal`: the thrown value is the
plain string `"oops"` (not an `Error`), intercepted on fallback 1. -/
theorem execute_nonError_value_fatal_witness :
    ((fun _ _ => .error (.nonErr "oops")) :
        Nat → Nat → Except Thrown Unit) 0 (getCurrentModelIdx ⟨3, 1⟩) =
      .error (.nonErr "oops") ∧
    (isRetryableError (.nonErr "oops") = false ∧
     executeWithRetry
        ((fun _ _ => .error (.nonErr "oops")) : Nat → Nat → Except Thrown Unit)
        "visualSweep" ⟨3, 1⟩ =
      ⟨.fatal "oops", ⟨3, 1⟩, 1, []⟩) :=
  ⟨rfl,
   execute_nonError_value_fatal (fun _ _ => .error (.nonErr "oops"))
     "visualSweep" ⟨3, 1⟩ "oops" rfl⟩

end ImageSuperMagic

namespace ImageSuperMagic

/-- If the retry loop succeeds, the operation returned that value on the
backend the loop was running on, at some attempt ordinal at or after the
loop's entry count. -/
lemma retryLoop_success_op {T : Type} (op : Nat → Nat → Except Thrown T)
    (mi : Nat) :
    ∀ (k ri ta : Nat) (le : Option String) (sl : List SleepEvent) (v : T),
      (retryLoop op mi k ri ta le sl).inner = .success v →
      ∃ n, ta ≤ n ∧ op n mi = .ok v := by
  intro k
  induction k with
  | zero =>
    intro ri ta le sl v h
    simp [retryLoop] at h
  | succ k' ih =>
    intro ri ta le sl v h
    rw [retryLoop] at h
    rcases hop : op ta mi with e | v' <;> rw [hop] at h
    · simp only at h
      by_cases hre : isRetryableError e = true
      · rw [if_pos hre] at h
        obtain ⟨n, hn, hv⟩ := ih _ _ _ _ _ h
        exact ⟨n, by omega, hv⟩
      · rw [if_neg hre] at h
        simp at h
    · simp only at h
      cases h
      exact ⟨ta, le_rfl, hop⟩

/-- A successful `advance` moves the cursor up by exactly one. -/
lemma getNextModel_some {s : AIState} {a : Nat} {s' : AIState}
    (h : getNextModel s = (some a, s')) :
    s'.currentModelIndex = s.currentModelIndex + 1 ∧
    s'.fallbackCount = s.fallbackCount := by
  unfold getNextModel at h
  split at h
  · cases h; exact ⟨rfl, rfl⟩
  · cases h

/-- If the outer loop returns a success, the final state is the state the
succeeding backend was reached in: its cursor is at or above the entry
cursor (no reset happens on the success path) and the operation succeeded
on the backend the final state's cursor selects. -/
lemma modelLoop_success_state {T : Type} (op : Nat → Nat → Except Thrown T)
    (name : String) :
    ∀ (f : Nat) (s : AIState) (ta : Nat) (le : Option String)
      (sl : List SleepEvent) (v : T),
      (modelLoop op name f s ta le sl).outcome = .ok v →
      s.currentModelIndex ≤
        (modelLoop op name f s ta le sl).finalState.currentModelIndex ∧
      ∃ n, op n
        (getCurrentModelIdx (modelLoop op name f s ta le sl).finalState) =
          .ok v := by
  intro f
  induction f with
  | zero =>
    intro s ta le sl v h
    simp [modelLoop] at h
  | succ f' ih =>
    intro s ta le sl v h
    rw [modelLoop] at h ⊢
    rcases hinner : (retryLoop op (getCurrentModelIdx s) maxRetries 0 ta
        le sl).inner with v' | m | -
    · rw [hinner] at h
      simp only at h
      cases h
      refine ⟨le_rfl, ?_⟩
      obtain ⟨n, -, hv⟩ := retryLoop_success_op op _ _ _ _ _ _ _ hinner
      exact ⟨n, hv⟩
    · rw [hinner] at h
      simp at h
    · rw [hinner] at h
      rcases hnext : getNextModel s with ⟨o, s'⟩
      rcases o with - | a
      · rw [hnext] at h
        simp at h
      · rw [hnext] at h
        simp only at h
        obtain ⟨h1, h2⟩ := ih s' _ _ _ v h
        obtain ⟨hidx, -⟩ := getNextModel_some hnext
        exact ⟨le_trans (by omega : s.currentModelIndex ≤
          s'.currentModelIndex) h1, h2⟩

/-- C8: when `executeWithRetry` returns successfully, the final cursor is
exactly the cursor of the backend that produced the success: it is never
reset to the primary and never moves back below the cursor the call started
with — so a call that returns successfully while the cursor is on a
fallback backend leaves it there, and the next logical operation starts on
that same fallback backend. -/
theorem execute_success_keeps_cursor {T : Type}
    (op : Nat → Nat → Except Thrown T) (name : String) (s : AIState) (v : T)
    (h : (executeWithRetry op name s).outcome = .ok v) :
    s.currentModelIndex ≤
      (executeWithRetry op name s).finalState.currentModelIndex ∧
    (∃ n, op n (getCurrentModelIdx (executeWithRetry op name s).finalState) =
      .ok v) ∧
    (0 < s.currentModelIndex →
      (executeWithRetry op name s).finalState.currentModelIndex ≠ 0) := by
  obtain ⟨h1, h2⟩ :=
    modelLoop_success_state op name (s.fallbackCount + 1) s 0 none [] v h
  refine ⟨h1, h2, fun hpos h0 => ?_⟩
  rw [executeWithRetry] at h0
  omega

/-- Witness for `execute_success_keeps_cursor`: the cursor sits on fallback
1 of a 3-backend chain, the operation succeeds at once; the cursor stays on
fallback 1 (it is not reset to the primary). -/
theorem execute_success_keeps_cursor_witness :
    (executeWithRetry ((fun _ _ => .ok "raw") : Nat → Nat → Except Thrown String)
        "generatePanelSpec" ⟨2, 1⟩).outcome = .ok "raw" ∧
    (0 < 1 →
      (executeWithRetry ((fun _ _ => .ok "raw") : Nat → Nat → Except Thrown String)
          "generatePanelSpec" ⟨2, 1⟩).finalState.currentModelIndex ≠ 0) :=
  ⟨rfl,
   (execute_success_keeps_cursor (fun _ _ => .ok "raw") "generatePanelSpec"
     ⟨2, 1⟩ "raw" rfl).2.2⟩

end ImageSuperMagic
